/-
Verification of the egnyte-client-linux virtual-filesystem core.

Shallow embedding of:
  * src/fs/inode_table.rs — the path <-> inode identity map (`InodeTable`),
    including a fine-grained step model of `get_or_create_inode` that exposes
    the individual atomic actions (DashMap read, AtomicU64 fetch_add, the two
    DashMap inserts) so concurrent interleavings can be examined;
  * src/fs/fuse_ops.rs — the FUSE operation handlers (lookup, getattr,
    readdir, open, read, release) with the remote API abstracted as
    explicitly supplied responses;
  * src/fs/api_client.rs — the token lifecycle (`get_valid_token`,
    `refresh_token`) and the retry protocol of `request` (401 refresh+retry,
    429 exponential backoff), and the tolerant child parsing of `list_folder`.

Machine integers are modelled as `Nat` (inode counters never approach 2^64 in
any statement below, and the Rust code performs no wrapping arithmetic on
them); time instants are seconds as `Nat`, where Rust's
`saturating_duration_since` corresponds to truncated `Nat` subtraction.
-/
import Mathlib

namespace Egnyte

/-! ### Association-list maps

`DashMap` (and the open-handle `HashMap`) are modelled as association lists
with the usual map semantics: `minsert` overwrites the binding of an existing
key in place, `merase` removes it.  Keys are unique in every state reachable
from the states built below. -/

/-- Lookup in an association list, first binding wins (maps keep keys unique). -/
def mfind {κ ν : Type} [DecidableEq κ] : List (κ × ν) → κ → Option ν
  | [], _ => none
  | (k, v) :: rest, key => if k = key then some v else mfind rest key

/-- Insert-or-overwrite, modelling `DashMap::insert` / `HashMap::insert`. -/
def minsert {κ ν : Type} [DecidableEq κ] : List (κ × ν) → κ → ν → List (κ × ν)
  | [], key, val => [(key, val)]
  | (k, v) :: rest, key, val =>
    if k = key then (key, val) :: rest else (k, v) :: minsert rest key val

/-- Remove a key, modelling `DashMap::remove` / `HashMap::remove`. -/
def merase {κ ν : Type} [DecidableEq κ] : List (κ × ν) → κ → List (κ × ν)
  | [], _ => []
  | (k, v) :: rest, key => if k = key then rest else (k, v) :: merase rest key

/-! ### The Identity Map (src/fs/inode_table.rs)

Paths are lists of components; the mount root `/` is the empty list.
`PathBuf::join` of a child name is appending one component, `Path::parent`
drops the last component. -/

/-- A filesystem path as its list of components (root `/` = `[]`). -/
abbrev PathC := List String

/-- State of `InodeTable`: the two `DashMap`s and the `AtomicU64` counter. -/
structure InodeTable where
  path_to_inode : List (PathC × Nat)
  inode_to_path : List (Nat × PathC)
  next_inode : Nat
deriving DecidableEq

/-- `InodeTable::new`: seed root `/` bound to inode 1, counter starts at 2. -/
def InodeTable.new : InodeTable :=
  { path_to_inode := [([], 1)]
    inode_to_path := [(1, [])]
    next_inode := 2 }

/-- `InodeTable::get_or_create_inode`, sequential (single-caller) semantics:
check `path_to_inode`; on a miss take the counter value, bump the counter and
insert both directions.  Returns the inode and the updated table. -/
def InodeTable.get_or_create_inode (t : InodeTable) (p : PathC) : Nat × InodeTable :=
  match mfind t.path_to_inode p with
  | some i => (i, t)
  | none =>
    let i := t.next_inode
    (i, { path_to_inode := minsert t.path_to_inode p i
          inode_to_path := minsert t.inode_to_path i p
          next_inode := t.next_inode + 1 })

/-- `InodeTable::get_inode`: forward lookup without allocation. -/
def InodeTable.get_inode (t : InodeTable) (p : PathC) : Option Nat :=
  mfind t.path_to_inode p

/-- `InodeTable::get_path`: reverse lookup. -/
def InodeTable.get_path (t : InodeTable) (i : Nat) : Option PathC :=
  mfind t.inode_to_path i

/-- `InodeTable::remove`: drop the inode binding, then the path binding the
removed entry pointed at. -/
def InodeTable.remove (t : InodeTable) (i : Nat) : InodeTable :=
  match mfind t.inode_to_path i with
  | none => t
  | some p =>
    { t with inode_to_path := merase t.inode_to_path i
             path_to_inode := merase t.path_to_inode p }

/-- `InodeTable::remove_path`: drop the path binding, then the inode binding
the removed entry pointed at. -/
def InodeTable.remove_path (t : InodeTable) (p : PathC) : InodeTable :=
  match mfind t.path_to_inode p with
  | none => t
  | some i =>
    { t with path_to_inode := merase t.path_to_inode p
             inode_to_path := merase t.inode_to_path i }

/-! ### Fine-grained concurrent model of `get_or_create_inode`

The Rust body performs four separately atomic actions in sequence:
pc 0 — `path_to_inode.get(&path_buf)` (the check);
pc 1 — `next_inode.fetch_add(1, Relaxed)` (reserve an inode number);
pc 2 — `path_to_inode.insert(path_buf, inode)`;
pc 3 — `inode_to_path.insert(inode, path_buf)`;
pc 4 — returned.
Nothing in the source makes the check atomic with the inserts, so an
interleaving may run both checks of two threads before either insert. -/

/-- Shared state visible to every thread (the fields of `InodeTable`). -/
structure GocShared where
  path_to_inode : List (PathC × Nat)
  inode_to_path : List (Nat × PathC)
  next_inode : Nat
deriving DecidableEq

/-- Thread-local state of one in-flight `get_or_create_inode(path)` call. -/
structure GocThread where
  path : PathC
  pc : Nat
  ino : Nat
  ret : Option Nat
deriving DecidableEq

/-- A fresh call of `get_or_create_inode` on `p`. -/
def GocThread.start (p : PathC) : GocThread :=
  { path := p, pc := 0, ino := 0, ret := none }

/-- One atomic action of the `get_or_create_inode` body. -/
def gocStep (s : GocShared) (th : GocThread) : GocShared × GocThread :=
  match th.pc with
  | 0 =>
    match mfind s.path_to_inode th.path with
    | some i => (s, { th with pc := 4, ret := some i })
    | none => (s, { th with pc := 1 })
  | 1 =>
    ({ s with next_inode := s.next_inode + 1 },
     { th with pc := 2, ino := s.next_inode })
  | 2 =>
    ({ s with path_to_inode := minsert s.path_to_inode th.path th.ino },
     { th with pc := 3 })
  | 3 =>
    ({ s with inode_to_path := minsert s.inode_to_path th.ino th.path },
     { th with pc := 4, ret := some th.ino })
  | _ => (s, th)

/-- Run a schedule over two concurrent `get_or_create_inode` calls:
`false` steps thread 0, `true` steps thread 1. -/
def gocRun : List Bool → GocShared × GocThread × GocThread → GocShared × GocThread × GocThread
  | [], st => st
  | b :: rest, (s, t0, t1) =>
    if b then
      let (s1, t1n) := gocStep s t1
      gocRun rest (s1, t0, t1n)
    else
      let (s1, t0n) := gocStep s t0
      gocRun rest (s1, t0n, t1)

/-- The shared state of a freshly constructed `InodeTable`. -/
def GocShared.new : GocShared :=
  { path_to_inode := [([], 1)], inode_to_path := [(1, [])], next_inode := 2 }

/-! ### The Filesystem Driver (src/fs/fuse_ops.rs)

Remote calls are abstracted by supplying each operation with the outcome its
`EgnyteAPI` call would produce (`Except Unit _`, `.error` for any remote
failure); the driver code only distinguishes success from failure.  The FUSE
reply buffer of `readdir` is modelled by a capacity in entries: `reply.add`
reports "full" (and drops the entry) once the buffer holds `cap` entries. -/

/-- A `fuse_ops::EgnyteEntry` (remote snapshot); `modified_time` in epoch
seconds. -/
structure EgnyteEntry where
  name : String
  path : String
  is_folder : Bool
  size : Nat
  modified_time : Nat
deriving DecidableEq

/-- `fuser::FileType`, restricted to the two kinds the driver produces. -/
inductive FileKind
  | directory
  | regularFile
deriving DecidableEq

/-- The file kind the driver derives from an entry's folder flag. -/
def kindOf (e : EgnyteEntry) : FileKind :=
  if e.is_folder then .directory else .regularFile

/-- `fuser::FileAttr` as populated by `lookup`. -/
structure FileAttr where
  ino : Nat
  size : Nat
  blocks : Nat
  atime : Nat
  mtime : Nat
  ctime : Nat
  crtime : Nat
  kind : FileKind
  perm : Nat
  nlink : Nat
  uid : Nat
  gid : Nat
  rdev : Nat
  flags : Nat
  blksize : Nat
deriving DecidableEq

/-- The attribute record `lookup` builds from a remote entry (uid/gid are the
process identity, passed in). -/
def mkFileAttr (uid gid ino : Nat) (e : EgnyteEntry) : FileAttr :=
  { ino := ino
    size := e.size
    blocks := (e.size + 511) / 512
    atime := e.modified_time
    mtime := e.modified_time
    ctime := e.modified_time
    crtime := e.modified_time
    kind := kindOf e
    perm := if e.is_folder then 0o755 else 0o644
    nlink := 1
    uid := uid
    gid := gid
    rdev := 0
    flags := 0
    blksize := 512 }

/-- Kernel error codes the driver replies with. -/
inductive FuseErr
  | ENOENT
  | EBADF
  | EIO
deriving DecidableEq

/-- Reply of `lookup`: entry (ttl seconds, attributes, generation) or error. -/
inductive LookupReply
  | entry (ttlSecs : Nat) (attr : FileAttr) (generation : Nat)
  | error (e : FuseErr)
deriving DecidableEq

/-- `lookup(parent, name)`: resolve the parent path, append the child name,
ask the remote for metadata (`resp`); on success assign/resolve the child's
inode and reply attributes with a 1 s TTL; on any failure reply ENOENT.
Returns the reply and the (possibly extended) inode table. -/
def lookupOp (uid gid : Nat) (t : InodeTable) (parent : Nat) (name : String)
    (resp : Except Unit EgnyteEntry) : LookupReply × InodeTable :=
  match t.get_path parent with
  | none => (.error .ENOENT, t)
  | some parentPath =>
    let childPath : PathC := parentPath ++ [name]
    match resp with
    | .error _ => (.error .ENOENT, t)
    | .ok e =>
      let (ino, t1) := t.get_or_create_inode childPath
      (.entry 1 (mkFileAttr uid gid ino e) 0, t1)

/-- `getattr(inode)`: resolve the path, ask the remote for metadata; build
attributes for the same inode; the inode table is never modified. -/
def getattrOp (uid gid : Nat) (t : InodeTable) (ino : Nat)
    (resp : Except Unit EgnyteEntry) : Except FuseErr (Nat × FileAttr) :=
  match t.get_path ino with
  | none => .error .ENOENT
  | some _ =>
    match resp with
    | .error _ => .error .ENOENT
    | .ok e => .ok (1, mkFileAttr uid gid ino e)

/-- The per-child loop of `readdir`: each remote child's path is the parent
path extended by the child's name; its inode is resolved/assigned through the
identity map, threading the table. -/
def readdirChildren (path : PathC) (tb : InodeTable) :
    List EgnyteEntry → List (Nat × FileKind × String) × InodeTable
  | [] => ([], tb)
  | e :: rest =>
    let (cino, tb1) := tb.get_or_create_inode (path ++ [e.name])
    let (tail, tb2) := readdirChildren path tb1 rest
    ((cino, kindOf e, e.name) :: tail, tb2)

/-- The `dir_entries` vector `readdir` assembles: `.` (the inode itself),
`..` (the parent's inode via `get_or_create_inode`, or the inode itself at
the root), then one `(inode, kind, name)` triple per remote child, resolving
each child's inode. -/
def readdirAssemble (t : InodeTable) (ino : Nat) (path : PathC)
    (entries : List EgnyteEntry) : List (Nat × FileKind × String) × InodeTable :=
  let selfEntry : Nat × FileKind × String := (ino, .directory, ".")
  let (dots, t1) :=
    if path = [] then
      ([selfEntry, (ino, .directory, "..")], t)
    else
      let (pino, t1) := t.get_or_create_inode path.dropLast
      ([selfEntry, (pino, .directory, "..")], t1)
  let (kids, t2) := readdirChildren path t1 entries
  (dots ++ kids, t2)

/-- The emission loop of `readdir`: a mutable `offset` starts at the request
offset, is incremented before each `reply.add`, and the loop breaks when the
buffer signals it is full (at `cap` entries, the offered entry dropped).
Every entry of `dir_entries` is offered, from the first — the loop does not
skip entries below the request offset.  Emitted items are
`(inode, offset cookie, kind, name)`. -/
def emitEntries (cap : Nat) : List (Nat × FileKind × String) → Nat →
    List (Nat × Nat × FileKind × String) → List (Nat × Nat × FileKind × String)
  | [], _, buf => buf
  | (ino, kind, name) :: rest, offset, buf =>
    if buf.length < cap then
      emitEntries cap rest (offset + 1) (buf ++ [(ino, offset + 1, kind, name)])
    else
      buf

/-- `readdir(inode, offset)`: resolve the path, list the children (`resp`),
assemble `.`/`..`/children, then run the emission loop; the success reply
(`reply.ok()`) carries whatever was emitted.  Unknown inode or remote
failure replies ENOENT. -/
def readdirOp (t : InodeTable) (ino : Nat) (offset cap : Nat)
    (resp : Except Unit (List EgnyteEntry)) :
    Except FuseErr (List (Nat × Nat × FileKind × String)) × InodeTable :=
  match t.get_path ino with
  | none => (.error .ENOENT, t)
  | some path =>
    match resp with
    | .error _ => (.error .ENOENT, t)
    | .ok entries =>
      let (des, t1) := readdirAssemble t ino path entries
      (.ok (emitEntries cap des offset []), t1)

/-- The open-handle table: inode -> full file content (bytes as `Nat`). -/
abbrev OpenFiles := List (Nat × List Nat)

/-- `open(inode)`: resolve the path, get metadata; a folder succeeds without
buffering; a file downloads its full content (`download`) into the handle
table.  The reply handler maps every error onto ENOENT (the inner `EIO` of a
failed download included). -/
def openOp (t : InodeTable) (files : OpenFiles) (ino : Nat)
    (resp : Except Unit EgnyteEntry) (download : Except Unit (List Nat)) :
    Except FuseErr Nat × OpenFiles :=
  match t.get_path ino with
  | none => (.error .ENOENT, files)
  | some _ =>
    match resp with
    | .error _ => (.error .ENOENT, files)
    | .ok e =>
      if e.is_folder then (.ok ino, files)
      else
        match download with
        | .error _ => (.error .ENOENT, files)
        | .ok content => (.ok ino, minsert files ino content)

/-- `read(inode, offset, size)`: look up the buffered content; no buffer
replies EBADF; `end = min(offset+size, len)`; an offset at or past the end
replies empty data; otherwise the slice `content[offset..end]`. -/
def readOp (files : OpenFiles) (ino offset size : Nat) : Except FuseErr (List Nat) :=
  match mfind files ino with
  | none => .error .EBADF
  | some content =>
    let stop := min (offset + size) content.length
    if content.length ≤ offset then .ok []
    else .ok ((content.drop offset).take (stop - offset))

/-- `release(inode)`: unconditionally remove the buffered entry; always ok. -/
def releaseOp (files : OpenFiles) (ino : Nat) : OpenFiles :=
  merase files ino

/-- Durable driver state: the identity map and the open-handle table. -/
structure FsState where
  table : InodeTable
  openFiles : OpenFiles
deriving DecidableEq

/-- Driver state at mount time (`EgnyteFuse::new`). -/
def FsState.init : FsState :=
  { table := InodeTable.new, openFiles := [] }

/-- One kernel callback together with the remote outcomes it observes. -/
inductive FsOp
  | lookup (uid gid parent : Nat) (name : String) (resp : Except Unit EgnyteEntry)
  | getattr (uid gid ino : Nat) (resp : Except Unit EgnyteEntry)
  | readdir (ino offset cap : Nat) (resp : Except Unit (List EgnyteEntry))
  | openf (ino : Nat) (resp : Except Unit EgnyteEntry) (download : Except Unit (List Nat))
  | readf (ino offset size : Nat)
  | release (ino : Nat)

/-- Effect of one kernel callback on the durable driver state. -/
def applyOp (s : FsState) : FsOp → FsState
  | .lookup uid gid parent name resp =>
    { s with table := (lookupOp uid gid s.table parent name resp).2 }
  | .getattr _ _ _ _ => s
  | .readdir ino offset cap resp =>
    { s with table := (readdirOp s.table ino offset cap resp).2 }
  | .openf ino resp download =>
    { s with openFiles := (openOp s.table s.openFiles ino resp download).2 }
  | .readf _ _ _ => s
  | .release ino =>
    { s with openFiles := releaseOp s.openFiles ino }

/-- A whole mount session: the callbacks applied in order from mount time. -/
def applyOps (ops : List FsOp) : FsState :=
  ops.foldl applyOp FsState.init

/-! ### The Remote Storage Client (src/fs/api_client.rs)

Wall-clock/monotonic instants are epoch seconds (`Nat`); Rust's
`Instant::saturating_duration_since` is truncated `Nat` subtraction.  The
token endpoint and the HTTP transport are abstracted into a `ClientEnv`:
`refresh` is the (deterministic) outcome of a refresh-token exchange, and
`responses i` is the response to the `i`-th HTTP send of the capability call
under scrutiny.  Elapsed time during one `request` call is not modelled
(nothing in `request` reads the clock between its steps).  The model tracks
the observable protocol trace: refresh-exchange count, backoff sleeps,
number of sends, and the bearer token attached to each send. -/

/-- An HTTP response, reduced to the fields `request` inspects. -/
structure HttpResponse where
  status : Nat
  body : String
deriving DecidableEq

/-- `reqwest::StatusCode::is_success`: the 2xx range. -/
def isSuccess (s : Nat) : Bool := decide (200 ≤ s) && decide (s < 300)

/-- A successful refresh-token exchange: the granted token and `expires_in`
seconds (defaulted to 3600 by the code when the provider omits it). -/
structure RefreshGrant where
  token : String
  expires_in : Nat
deriving DecidableEq

/-- The deterministic environment of one capability call. -/
structure ClientEnv where
  now : Nat
  refresh : Option RefreshGrant
  responses : Nat → HttpResponse

/-- `ClientInner`: the shared token state (absolute expiry instant). -/
structure ClientInner where
  access_token : Option String
  token_expires_at : Option Nat
deriving DecidableEq

/-- `refresh_token`: perform the exchange; on success the new token and
`now + expires_in` replace the whole token state (the persisted token record
is rewritten alongside, outside this model); on failure the in-flight
operation fails. -/
def refreshToken (env : ClientEnv) : Except String ClientInner :=
  match env.refresh with
  | none => .error "Token refresh failed. Please run egnyte-cli auth login"
  | some g => .ok { access_token := some g.token
                    token_expires_at := some (env.now + g.expires_in) }

/-- The `needs_refresh` check of `get_valid_token`: no recorded expiry, or
the expiry within 60 seconds of now (a past expiry saturates to 0). -/
def needsRefresh (now : Nat) (st : ClientInner) : Bool :=
  match st.token_expires_at with
  | none => true
  | some exp => exp - now < 60

/-- `get_valid_token`: refresh when `needs_refresh`, then return the stored
access token (an error if none is stored).  The second component counts the
refresh exchanges performed (0 or 1). -/
def getValidToken (env : ClientEnv) (st : ClientInner) :
    Except String (String × ClientInner) × Nat :=
  if needsRefresh env.now st then
    match refreshToken env with
    | .error e => (.error e, 1)
    | .ok st1 =>
      match st1.access_token with
      | some tok => (.ok (tok, st1), 1)
      | none => (.error "No access token available", 1)
  else
    match st.access_token with
    | some tok => (.ok (tok, st), 0)
    | none => (.error "No access token available", 0)

/-- Failure of a capability call: an auth-chain failure (refresh failed /
no token), or a non-success HTTP status with the response body. -/
inductive ReqError
  | auth (msg : String)
  | http (status : Nat) (body : String)
deriving DecidableEq

/-- Observable trace of one `request` call: its outcome, the number of
refresh exchanges, the backoff sleeps (ms) in order, the number of HTTP
sends, and the bearer token attached to each send in order. -/
structure ReqTrace where
  outcome : Except ReqError HttpResponse
  refreshes : Nat
  sleeps : List Nat
  attempts : Nat
  tokensUsed : List String

/-- The non-retrying tail of a loop iteration: a success response is
returned, anything else becomes an error carrying that response's status and
body. -/
def finishResp (resp : HttpResponse) (attempt : Nat) (token : String) : ReqTrace :=
  if isSuccess resp.status then
    { outcome := .ok resp, refreshes := 0, sleeps := [], attempts := attempt + 1
      tokensUsed := [token] }
  else
    { outcome := .error (.http resp.status resp.body), refreshes := 0, sleeps := []
      attempts := attempt + 1, tokensUsed := [token] }

/-- The 401 branch of `request`: one unconditional `refresh_token`, then
`get_valid_token` (which can itself refresh again when the fresh grant
already expires within 60 s), then exactly one resend with the new token; a
successful resend is returned, otherwise control falls out of the branch and
the *original* 401 response reaches the error return.  `resp` is that 401
response, received as send number `attempt`. -/
def handle401 (env : ClientEnv) (resp : HttpResponse) (attempt : Nat) : ReqTrace :=
  match refreshToken env with
  | .error e =>
    { outcome := .error (.auth e), refreshes := 1, sleeps := []
      attempts := attempt + 1, tokensUsed := [] }
  | .ok st1 =>
    match getValidToken env st1 with
    | (.error e, k) =>
      { outcome := .error (.auth e), refreshes := 1 + k, sleeps := []
        attempts := attempt + 1, tokensUsed := [] }
    | (.ok (newTok, _), k) =>
      let resp2 := env.responses (attempt + 1)
      if isSuccess resp2.status then
        { outcome := .ok resp2, refreshes := 1 + k, sleeps := []
          attempts := attempt + 2, tokensUsed := [newTok] }
      else
        { outcome := .error (.http resp.status resp.body), refreshes := 1 + k
          sleeps := [], attempts := attempt + 2, tokensUsed := [newTok] }

/-- The retry loop of `request`, entered with `retries = 5`,
`backoff = 500` ms and send counter `attempt = 0`.  Each iteration sends once
with the token obtained before the loop; a 401 goes through `handle401`
(which always leaves the loop); a 429 with retries remaining sleeps the
current backoff, doubles it and goes round; everything else finishes. -/
def requestLoop (env : ClientEnv) (token : String) :
    Nat → Nat → Nat → ReqTrace
  | retries, backoff, attempt =>
    let resp := env.responses attempt
    if resp.status = 401 then
      let r := handle401 env resp attempt
      { r with tokensUsed := token :: r.tokensUsed }
    else
      match retries with
      | r + 1 =>
        if resp.status = 429 then
          let rest := requestLoop env token r (backoff * 2) (attempt + 1)
          { rest with sleeps := backoff :: rest.sleeps
                      tokensUsed := token :: rest.tokensUsed }
        else finishResp resp attempt token
      | 0 => finishResp resp attempt token

/-- `request`: pacing (time-only, not traced), `get_valid_token`, then the
retry loop. -/
def request (env : ClientEnv) (st : ClientInner) : ReqTrace :=
  match getValidToken env st with
  | (.error e, k) =>
    { outcome := .error (.auth e), refreshes := k, sleeps := [], attempts := 0
      tokensUsed := [] }
  | (.ok (tok, _), k) =>
    let r := requestLoop env tok 5 500 0
    { r with refreshes := k + r.refreshes }

/-! ### `list_folder` child parsing (src/fs/api_client.rs)

A child object of the `folders`/`files` arrays, after the JSON body itself
parsed, is modelled by which of the serde-relevant fields it carries.
`api_client::EgnyteEntry`'s derived `Deserialize` requires `name`, `path`,
`isFolder` and `lastModified` (`size` defaults to 0), and converts the
millisecond timestamp to whole seconds. -/

/-- A raw child object: the fields of interest, each possibly absent (an
absent field stands for any deserialization failure of the object). -/
structure RawObj where
  name : Option String
  path : Option String
  isFolder : Option Bool
  size : Option Nat
  lastModified : Option Nat
deriving DecidableEq

/-- serde deserialization of `api_client::EgnyteEntry` from a child object:
succeeds exactly when `name`, `path`, `isFolder` and `lastModified` are
present; `size` defaults to 0; `lastModified` (ms) is truncated to seconds. -/
def parseEntry (o : RawObj) : Option EgnyteEntry :=
  match o.name, o.path, o.isFolder, o.lastModified with
  | some n, some p, some f, some ms =>
    some { name := n, path := p, is_folder := f
           size := o.size.getD 0, modified_time := ms / 1000 }
  | _, _, _, _ => none

/-- The `folders` loop of `list_folder`: each well-formed child is pushed
with `is_folder := true` and `size := 0`; a child that fails to deserialize
is skipped. -/
def processFolders (acc : List EgnyteEntry) : List RawObj → List EgnyteEntry
  | [] => acc
  | o :: rest =>
    match parseEntry o with
    | some e =>
      processFolders
        (acc ++ [{ name := e.name, path := e.path, is_folder := true
                   size := 0, modified_time := e.modified_time }]) rest
    | none => processFolders acc rest

/-- The `files` loop of `list_folder`: each well-formed child is pushed with
`is_folder := false` and its own size; a child that fails to deserialize is
skipped. -/
def processFiles (acc : List EgnyteEntry) : List RawObj → List EgnyteEntry
  | [] => acc
  | o :: rest =>
    match parseEntry o with
    | some e =>
      processFiles
        (acc ++ [{ name := e.name, path := e.path, is_folder := false
                   size := e.size, modified_time := e.modified_time }]) rest
    | none => processFiles acc rest

/-- `list_folder`, from the parsed response body: process the `folders`
array, then the `files` array, into one entries vector.  The call succeeds
with exactly the well-formed children. -/
def listFolderEntries (folders files : List RawObj) : List EgnyteEntry :=
  processFiles (processFolders [] folders) files

/-! ### Concrete scenarios used by the theorems below -/

/-- Two racing `get_or_create_inode("/a")` calls on a fresh table, scheduled
so both checks (pc 0) run before either thread's allocation and inserts. -/
def raceResult : GocShared × GocThread × GocThread :=
  gocRun [false, true, false, false, false, true, true, true]
    (GocShared.new, GocThread.start ["a"], GocThread.start ["a"])

/-- A root listing with the single folder child `Docs`. -/
def c1Listing : List EgnyteEntry :=
  [{ name := "Docs", path := "/Docs", is_folder := true, size := 0, modified_time := 5 }]

/-- An open-handle table with one 3-byte buffer under inode 7. -/
def wFiles : OpenFiles := [(7, [10, 11, 12])]

/-- A malformed child object: no `name`, so deserialization fails. -/
def badObj : RawObj :=
  { name := none, path := some "/x", isFolder := some true
    size := some 3, lastModified := some 1000 }

/-- A well-formed folder child object. -/
def goodFolder : RawObj :=
  { name := some "Docs", path := some "/Docs", isFolder := some true
    size := none, lastModified := some 5000 }

/-- A well-formed file child object. -/
def goodFile : RawObj :=
  { name := some "readme.txt", path := some "/readme.txt", isFolder := some false
    size := some 42, lastModified := some 7999 }

/-- Token state holding a token that expires 500 s from instant 0. -/
def wInner : ClientInner := { access_token := some "OLD", token_expires_at := some 500 }

/-- Environment: refresh grants a 3600 s token; send 0 answers 401, every
later send answers 200. -/
def w401Env : ClientEnv :=
  { now := 0, refresh := some { token := "NEW", expires_in := 3600 }
    responses := fun i =>
      if i = 0 then { status := 401, body := "expired" }
      else { status := 200, body := "listing" } }

/-- Environment identical to `w401Env` except the refresh grant already
expires in 30 s (below the 60 s lookahead). -/
def cex401Env : ClientEnv :=
  { now := 0, refresh := some { token := "NEW", expires_in := 30 }
    responses := fun i =>
      if i = 0 then { status := 401, body := "expired" }
      else { status := 200, body := "listing" } }

/-- Environment: refresh grants a 3600 s token; every send answers 200. -/
def freshEnv : ClientEnv :=
  { now := 0, refresh := some { token := "NEW", expires_in := 3600 }
    responses := fun _ => { status := 200, body := "ok" } }

/-- Environment: refresh grants a 3600 s token; every send answers 429. -/
def w429Env : ClientEnv :=
  { now := 0, refresh := some { token := "NEW", expires_in := 3600 }
    responses := fun _ => { status := 429, body := "slow down" } }

/-- Token state with no stored access token but a far-future expiry record
(a `tokens.json` carrying `issued_at`/`expires_in` but no `access_token`). -/
def absentTokenInner : ClientInner := { access_token := none, token_expires_at := some 1000 }

/-- Root-invariant of the identity map: `/` is bound to inode 1 in both
directions and the allocation counter is past 1 (so no fresh allocation can
collide with the root inode). -/
def rootInv (t : InodeTable) : Prop :=
  t.get_inode [] = some 1 ∧ t.get_path 1 = some [] ∧ 2 ≤ t.next_inode

/-! ### Map lemmas -/

/-- Lookup of a freshly inserted key returns the inserted value. -/
theorem mfind_minsert_self {κ ν : Type} [DecidableEq κ] (l : List (κ × ν)) (k : κ) (v : ν) :
    mfind (minsert l k v) k = some v := by
  induction l with
  | nil => simp [minsert, mfind]
  | cons hd tl ih =>
    obtain ⟨a, b⟩ := hd
    by_cases hak : a = k
    · subst hak
      simp [minsert, mfind]
    · simp [minsert, mfind, hak, ih]

/-- Inserting one key leaves lookups of other keys unchanged. -/
theorem mfind_minsert_ne {κ ν : Type} [DecidableEq κ] (l : List (κ × ν)) (k k' : κ) (v : ν)
    (h : k ≠ k') : mfind (minsert l k v) k' = mfind l k' := by
  induction l with
  | nil => simp [minsert, mfind, h]
  | cons hd tl ih =>
    obtain ⟨a, b⟩ := hd
    by_cases hak : a = k
    · subst hak
      simp [minsert, mfind, h]
    · simp [minsert, mfind, hak, ih]

/-! ### Claim theorems -/

/-- Claim C6: `get_or_create_inode` is idempotent — on any table state whose
forward binding for `p` (if any) is mirrored by the reverse map, two
successive calls with `p` return the same inode, and that inode
reverse-resolves to `p` afterwards. -/
theorem get_or_create_idempotent (t : InodeTable) (p : PathC)
    (h : ∀ i, t.get_inode p = some i → t.get_path i = some p) :
    (t.get_or_create_inode p).1 = ((t.get_or_create_inode p).2.get_or_create_inode p).1 ∧
    ((t.get_or_create_inode p).2.get_or_create_inode p).2.get_path
      (t.get_or_create_inode p).1 = some p := by
  unfold InodeTable.get_or_create_inode
  cases hf : mfind t.path_to_inode p with
  | some i =>
    simp only [hf]
    exact ⟨trivial, h i hf⟩
  | none =>
    simp only [hf]
    have hself : mfind (minsert t.path_to_inode p t.next_inode) p = some t.next_inode :=
      mfind_minsert_self _ _ _
    simp only [hself]
    exact ⟨trivial, mfind_minsert_self _ _ _⟩

/-- Claim C6 witness: the idempotence theorem applied to a fresh table and
the path `/docs`. -/
theorem get_or_create_idempotent_witness :
    (InodeTable.new.get_or_create_inode ["docs"]).1 =
      ((InodeTable.new.get_or_create_inode ["docs"]).2.get_or_create_inode ["docs"]).1 ∧
    ((InodeTable.new.get_or_create_inode ["docs"]).2.get_or_create_inode ["docs"]).2.get_path
      (InodeTable.new.get_or_create_inode ["docs"]).1 = some ["docs"] :=
  get_or_create_idempotent InodeTable.new ["docs"] (fun _ hi => Option.noConfusion hi)

/-- Claim C2: the check of `get_or_create_inode` is not atomic with its
inserts.  In the interleaving where two callers of the same new path `/a`
both pass the check before either inserts, they return the distinct inodes 2
and 3, and afterwards both inodes reverse-resolve to `/a` — the bijection is
broken and two racing creators obtained distinct inodes for one path. -/
theorem get_or_create_race_breaks_bijection :
    raceResult.2.1.ret = some 2 ∧ raceResult.2.2.ret = some 3 ∧
    mfind raceResult.1.inode_to_path 2 = some ["a"] ∧
    mfind raceResult.1.inode_to_path 3 = some ["a"] ∧
    raceResult.2.1.ret ≠ raceResult.2.2.ret := by
  refine ⟨rfl, rfl, rfl, rfl, ?_⟩
  decide

/-- Claim C8: a `lookup` whose remote metadata call fails replies ENOENT and
leaves the identity map exactly as it was — no inode is allocated and no
binding is added. -/
theorem lookup_remote_failure_frame (uid gid : Nat) (t : InodeTable) (parent : Nat)
    (name : String) :
    lookupOp uid gid t parent name (.error ()) = (.error .ENOENT, t) := by
  unfold lookupOp
  cases t.get_path parent <;> rfl

/-- Claim C7: `read` on a buffered handle replies the empty byte sequence
when the offset is at or past the buffer end, and otherwise exactly the
buffer slice from `offset` to `min(offset+size, len)`; a read with no
buffered handle replies EBADF. -/
theorem read_slices_buffer (files : OpenFiles) (ino offset size : Nat) :
    (mfind files ino = none → readOp files ino offset size = .error .EBADF) ∧
    (∀ content, mfind files ino = some content →
      (content.length ≤ offset → readOp files ino offset size = .ok []) ∧
      (offset < content.length →
        readOp files ino offset size =
          .ok ((content.drop offset).take (min (offset + size) content.length - offset)))) := by
  refine ⟨fun h => ?_, fun content hc => ⟨fun hpast => ?_, fun hin => ?_⟩⟩
  · simp [readOp, h]
  · simp [readOp, hc, hpast]
  · simp [readOp, hc, Nat.not_le.mpr hin]

/-- Claim C7 witness: on the buffer `[10, 11, 12]` under inode 7, a read at
offset 5 yields empty data, a read at offset 1 of length 10 yields the tail
slice, and a read on the unbuffered inode 9 yields EBADF. -/
theorem read_slices_buffer_witness :
    readOp wFiles 7 5 4 = .ok [] ∧ readOp wFiles 7 1 10 = .ok [11, 12] ∧
    readOp wFiles 9 0 2 = .error .EBADF := by
  refine ⟨?_, ?_, ?_⟩
  · exact ((read_slices_buffer wFiles 7 5 4).2 [10, 11, 12] rfl).1 (by decide)
  · exact (((read_slices_buffer wFiles 7 1 10).2 [10, 11, 12] rfl).2 (by decide)).trans
      (congrArg Except.ok (by decide))
  · exact (read_slices_buffer wFiles 9 0 2).1 rfl

/-- `get_or_create_inode` preserves the root invariant: an existing path
changes nothing, and a fresh allocation inserts a non-root path under an
inode ≥ 2, touching neither direction of the root binding. -/
theorem goc_rootInv (t : InodeTable) (p : PathC) (h : rootInv t) :
    rootInv (t.get_or_create_inode p).2 := by
  obtain ⟨h1, h2, h3⟩ := h
  unfold InodeTable.get_or_create_inode
  cases hf : mfind t.path_to_inode p with
  | some i => exact ⟨h1, h2, h3⟩
  | none =>
    have hp : p ≠ [] := by
      rintro rfl
      unfold InodeTable.get_inode at h1
      rw [hf] at h1
      cases h1
    have hn : t.next_inode ≠ 1 := by omega
    refine ⟨?_, ?_, show 2 ≤ t.next_inode + 1 by omega⟩
    · show mfind (minsert t.path_to_inode p t.next_inode) [] = some 1
      rw [mfind_minsert_ne _ _ _ _ hp]
      exact h1
    · show mfind (minsert t.inode_to_path t.next_inode p) 1 = some []
      rw [mfind_minsert_ne _ _ _ _ hn]
      exact h2

/-- The child loop of `readdir` preserves the root invariant. -/
theorem readdirChildren_rootInv (path : PathC) (es : List EgnyteEntry) (t : InodeTable)
    (h : rootInv t) : rootInv (readdirChildren path t es).2 := by
  induction es generalizing t with
  | nil => exact h
  | cons e rest ih => exact ih _ (goc_rootInv t (path ++ [e.name]) h)

/-- Every kernel callback preserves the root invariant of the identity map. -/
theorem applyOp_rootInv (s : FsState) (op : FsOp) (h : rootInv s.table) :
    rootInv (applyOp s op).table := by
  cases op with
  | lookup uid gid parent name resp =>
    simp only [applyOp]
    unfold lookupOp
    cases s.table.get_path parent with
    | none => exact h
    | some pp =>
      cases resp with
      | error e => exact h
      | ok e => exact goc_rootInv _ _ h
  | getattr uid gid ino resp => exact h
  | readdir ino offset cap resp =>
    simp only [applyOp]
    unfold readdirOp
    cases s.table.get_path ino with
    | none => exact h
    | some path =>
      cases resp with
      | error e => exact h
      | ok entries =>
        unfold readdirAssemble
        by_cases hroot : path = []
        · simp only [hroot, if_pos rfl]
          exact readdirChildren_rootInv _ _ _ h
        · simp only [if_neg hroot]
          exact readdirChildren_rootInv _ _ _ (goc_rootInv _ _ h)
  | openf ino resp download => exact h
  | readf ino offset size => exact h
  | release ino => exact h

/-- Claim C9: the root binding is permanent — immediately after construction
and after any sequence of driver callbacks, `/` resolves to inode 1 and
inode 1 resolves to `/`; no driver operation removes the root binding. -/
theorem root_binding_permanent (ops : List FsOp) :
    FsState.init.table.get_inode [] = some 1 ∧
    FsState.init.table.get_path 1 = some [] ∧
    (applyOps ops).table.get_inode [] = some 1 ∧
    (applyOps ops).table.get_path 1 = some [] := by
  have main : ∀ (l : List FsOp) (s : FsState),
      rootInv s.table → rootInv (l.foldl applyOp s).table := by
    intro l
    induction l with
    | nil => exact fun s hs => hs
    | cons op rest ih => exact fun s hs => ih _ (applyOp_rootInv s op hs)
  have hinit : rootInv FsState.init.table := ⟨rfl, rfl, Nat.le_refl 2⟩
  have hfin := main ops FsState.init hinit
  exact ⟨hinit.1, hinit.2.1, hfin.1, hfin.2.1⟩

/-- Claim C1 (evaluation of the code at the failing input): `readdir` at
request offset 2 on the root directory holding the single child `Docs`
re-emits the full assembled list — including the `.` and `..` entries at
positions 0 and 1 — merely shifting the offset cookies, instead of starting
emission at position 2. -/
theorem readdir_reemits_entries_before_offset :
    (readdirOp InodeTable.new 1 2 100 (.ok c1Listing)).1 =
      .ok [(1, 3, .directory, "."), (1, 4, .directory, ".."),
           (2, 5, .directory, "Docs")] := rfl

/-- The `folders` loop appends exactly the well-formed children, forced to
folder kind and size 0. -/
theorem processFolders_eq (l : List RawObj) (acc : List EgnyteEntry) :
    processFolders acc l = acc ++ (l.filterMap parseEntry).map
      (fun e => { name := e.name, path := e.path, is_folder := true
                  size := 0, modified_time := e.modified_time }) := by
  induction l generalizing acc with
  | nil => simp [processFolders]
  | cons o rest ih =>
    cases hp : parseEntry o with
    | none => simp [processFolders, hp, ih]
    | some e => simp [processFolders, hp, ih]

/-- The `files` loop appends exactly the well-formed children, forced to
file kind with their own size. -/
theorem processFiles_eq (l : List RawObj) (acc : List EgnyteEntry) :
    processFiles acc l = acc ++ (l.filterMap parseEntry).map
      (fun e => { name := e.name, path := e.path, is_folder := false
                  size := e.size, modified_time := e.modified_time }) := by
  induction l generalizing acc with
  | nil => simp [processFiles]
  | cons o rest ih =>
    cases hp : parseEntry o with
    | none => simp [processFiles, hp, ih]
    | some e => simp [processFiles, hp, ih]

/-- Claim C10: `list_folder` silently skips a malformed child in either
array (the listing succeeds, unchanged apart from the missing child), and
returns exactly the well-formed children — those of `folders` flagged as
folders with size 0, those of `files` flagged as files with their own size. -/
theorem list_folder_skips_malformed (folders files pre post : List RawObj) (bad : RawObj)
    (hbad : parseEntry bad = none) :
    listFolderEntries (pre ++ bad :: post) files = listFolderEntries (pre ++ post) files ∧
    listFolderEntries folders (pre ++ bad :: post) = listFolderEntries folders (pre ++ post) ∧
    listFolderEntries folders files =
      (folders.filterMap parseEntry).map
        (fun e => { name := e.name, path := e.path, is_folder := true
                    size := 0, modified_time := e.modified_time }) ++
      (files.filterMap parseEntry).map
        (fun e => { name := e.name, path := e.path, is_folder := false
                    size := e.size, modified_time := e.modified_time }) := by
  refine ⟨?_, ?_, ?_⟩ <;>
    simp [listFolderEntries, processFolders_eq, processFiles_eq, List.filterMap_append,
      List.filterMap_cons, hbad]

/-- Claim C10 witness: a child object with no `name` between a well-formed
folder and nothing else is skipped, leaving the listing of the remaining
well-formed children. -/
theorem list_folder_skips_malformed_witness :
    listFolderEntries [goodFolder, badObj] [goodFile] =
      listFolderEntries [goodFolder] [goodFile] :=
  (list_folder_skips_malformed [goodFolder] [goodFile] [goodFolder] [] badObj rfl).1

/-- Claim C5 counterexample: with an absent access token but a recorded
expiry 1000 s in the future (and a working refresh endpoint),
`get_valid_token` performs no refresh at all and fails — the claim said an
absent token forces a refresh before the request proceeds. -/
theorem get_valid_token_absent_token_cex :
    absentTokenInner.access_token = none ∧
    (getValidToken freshEnv absentTokenInner).2 = 0 ∧
    (getValidToken freshEnv absentTokenInner).1 = .error "No access token available" :=
  ⟨rfl, rfl, rfl⟩

/-- Claim C5 (amended): the refresh decision is keyed on the recorded expiry
alone — if it is absent or lies within 60 s of now (a past expiry included),
exactly one refresh is performed before the request proceeds and the request
continues with the newly granted token; otherwise no refresh happens and the
stored token is used unchanged, the call failing (without a refresh) when no
access token is stored. -/
theorem get_valid_token_refresh_policy (env : ClientEnv) (st : ClientInner) :
    ((st.token_expires_at = none ∨ ∃ e, st.token_expires_at = some e ∧ e - env.now < 60) →
      (getValidToken env st).2 = 1 ∧
      ∀ g, env.refresh = some g →
        (getValidToken env st).1 =
          .ok (g.token, { access_token := some g.token
                          token_expires_at := some (env.now + g.expires_in) })) ∧
    (∀ e, st.token_expires_at = some e → 60 ≤ e - env.now →
      (getValidToken env st).2 = 0 ∧
      (∀ tok, st.access_token = some tok → (getValidToken env st).1 = .ok (tok, st)) ∧
      (st.access_token = none →
        (getValidToken env st).1 = .error "No access token available")) := by
  constructor
  · intro hcond
    have hnr : needsRefresh env.now st = true := by
      cases hcond with
      | inl h => simp [needsRefresh, h]
      | inr h =>
        obtain ⟨e, he, hlt⟩ := h
        simp [needsRefresh, he, hlt]
    constructor
    · cases hr : env.refresh with
      | none => simp [getValidToken, hnr, refreshToken, hr]
      | some g => simp [getValidToken, hnr, refreshToken, hr]
    · intro g hg
      simp [getValidToken, hnr, refreshToken, hg]
  · intro e he hge
    have hnr : needsRefresh env.now st = false := by
      simp only [needsRefresh, he, decide_eq_false_iff_not]
      omega
    refine ⟨?_, fun tok htok => ?_, fun hnone => ?_⟩
    · cases ha : st.access_token <;> simp [getValidToken, hnr, ha]
    · simp [getValidToken, hnr, htok]
    · simp [getValidToken, hnr, hnone]

/-- Claim C5 witness: a token expiring 10 s from now triggers exactly one
refresh and the request proceeds with the granted token. -/
theorem get_valid_token_refresh_policy_witness :
    (getValidToken freshEnv { access_token := some "T", token_expires_at := some 10 }).2 = 1 ∧
    (getValidToken freshEnv { access_token := some "T", token_expires_at := some 10 }).1 =
      .ok ("NEW", { access_token := some "NEW"
                    token_expires_at := some (freshEnv.now + 3600) }) := by
  have h := (get_valid_token_refresh_policy freshEnv
    { access_token := some "T", token_expires_at := some 10 }).1
    (Or.inr ⟨10, rfl, by decide⟩)
  exact ⟨h.1, h.2 { token := "NEW", expires_in := 3600 } rfl⟩

/-- Claim C4: with a valid token, a call answered 429 on the initial attempt
and on every retry is retried exactly 5 more times with sleeps 500, 1000,
2000, 4000, 8000 ms, surfaces the final response's status and body as the
failure, and performs no refresh; a retry answered with success ends the
loop with that success. -/
theorem request_429_backoff (env : ClientEnv) (st : ClientInner) (t : String) (e : Nat)
    (ht : st.access_token = some t) (he : st.token_expires_at = some e)
    (hfar : 60 ≤ e - env.now) :
    ((∀ i, i ≤ 5 → (env.responses i).status = 429) →
      (request env st).outcome = .error (.http 429 (env.responses 5).body) ∧
      (request env st).sleeps = [500, 1000, 2000, 4000, 8000] ∧
      (request env st).attempts = 6 ∧
      (request env st).refreshes = 0) ∧
    (∀ j, j ≤ 5 → (∀ i, i < j → (env.responses i).status = 429) →
      isSuccess (env.responses j).status = true →
      (request env st).outcome = .ok (env.responses j) ∧
      (request env st).attempts = j + 1) := by
  have hnr : needsRefresh env.now st = false := by
    simp only [needsRefresh, he, decide_eq_false_iff_not]
    omega
  have hgvt : getValidToken env st = (.ok (t, st), 0) := by
    simp [getValidToken, hnr, ht]
  constructor
  · intro h429
    have h0 := h429 0 (by omega)
    have h1 := h429 1 (by omega)
    have h2 := h429 2 (by omega)
    have h3 := h429 3 (by omega)
    have h4 := h429 4 (by omega)
    have h5 := h429 5 (by omega)
    refine ⟨?_, ?_, ?_, ?_⟩ <;>
      simp [request, hgvt, requestLoop, h0, h1, h2, h3, h4, h5, finishResp, isSuccess]
  · intro j hj hpre hsucc
    have hs : 200 ≤ (env.responses j).status ∧ (env.responses j).status < 300 := by
      simpa [isSuccess] using hsucc
    have hne401 : (env.responses j).status ≠ 401 := by omega
    have hne429 : (env.responses j).status ≠ 429 := by omega
    interval_cases j <;>
      · have hlist := fun i hi => hpre i hi
        constructor <;>
          simp [request, hgvt, requestLoop, finishResp, hsucc, hne401, hne429,
            fun i hi => hpre i hi]

/-- Claim C4 witness: the 429 theorem applied to a concrete environment
answering 429 everywhere. -/
theorem request_429_backoff_witness :
    (request w429Env wInner).outcome = .error (.http 429 "slow down") ∧
    (request w429Env wInner).sleeps = [500, 1000, 2000, 4000, 8000] ∧
    (request w429Env wInner).attempts = 6 := by
  have h := (request_429_backoff w429Env wInner "OLD" 500 rfl rfl (by decide)).1
    (fun i _ => rfl)
  exact ⟨h.1, h.2.1, h.2.2.1⟩

/-- Claim C3 counterexample: a 401 answered by a refresh whose grant already
expires in 30 s makes the code refresh twice for that one 401 (the
unconditional `refresh_token` plus the one `get_valid_token` triggers), not
exactly once as claimed — the retry still succeeds and its result is
returned. -/
theorem request_401_double_refresh_cex :
    (request cex401Env wInner).refreshes = 2 ∧
    ¬ (request cex401Env wInner).refreshes = 1 ∧
    (request cex401Env wInner).outcome = .ok { status := 200, body := "listing" } :=
  ⟨rfl, by decide, rfl⟩

/-- Claim C3 (amended): on a 401, the client performs one unconditional
refresh, re-validates the token — which triggers one additional refresh
exactly when the fresh grant already expires within 60 s — and retries
exactly once with the granted token; a successful retry's result is
returned, and a failed retry fails the whole call (no further retry, the
error carrying the original 401 response's status and body). -/
theorem request_401_refresh_retry (env : ClientEnv) (st : ClientInner) (t : String)
    (e : Nat) (g : RefreshGrant)
    (ht : st.access_token = some t) (he : st.token_expires_at = some e)
    (hfar : 60 ≤ e - env.now) (hg : env.refresh = some g)
    (h401 : (env.responses 0).status = 401) :
    (request env st).refreshes = (if g.expires_in < 60 then 2 else 1) ∧
    (request env st).attempts = 2 ∧
    (request env st).tokensUsed = [t, g.token] ∧
    (request env st).sleeps = [] ∧
    (isSuccess (env.responses 1).status = true →
      (request env st).outcome = .ok (env.responses 1)) ∧
    (isSuccess (env.responses 1).status = false →
      (request env st).outcome = .error (.http 401 (env.responses 0).body)) := by
  have hnr : needsRefresh env.now st = false := by
    simp only [needsRefresh, he, decide_eq_false_iff_not]
    omega
  have hgvt : getValidToken env st = (.ok (t, st), 0) := by
    simp [getValidToken, hnr, ht]
  by_cases hei : g.expires_in < 60 <;> by_cases hsc : isSuccess (env.responses 1).status <;>
    refine ⟨?_, ?_, ?_, ?_, ?_, ?_⟩ <;>
      · simp only [request, hgvt]
        simp [requestLoop, h401, handle401, refreshToken, hg, getValidToken,
          needsRefresh, Nat.add_sub_cancel_left, hei, hsc, finishResp]

/-- Claim C3 witness: the amended 401 theorem applied to an environment
whose refresh grants a 3600 s token and whose retry answers 200. -/
theorem request_401_refresh_retry_witness :
    (request w401Env wInner).refreshes = 1 ∧
    (request w401Env wInner).outcome = .ok { status := 200, body := "listing" } ∧
    (request w401Env wInner).attempts = 2 := by
  have h := request_401_refresh_retry w401Env wInner "OLD" 500
    { token := "NEW", expires_in := 3600 } rfl rfl (by decide) rfl rfl
  refine ⟨?_, h.2.2.2.2.1 (by decide), h.2.1⟩
  have h1 := h.1
  simpa using h1

end Egnyte
